import Mathlib

/-!
Verification of the social-media post scheduler (scheduler.js, app.js, and the
two platform service classes).  The data model and operations below are a
shallow embedding of the JavaScript source: SQLite rows become Lean structures,
SQL statements become pure list transformations, `async` database and network
calls become explicit result-passing with an `Env` oracle describing publisher
outcomes and database write failures, and JavaScript exception flow becomes
`Store × Option String` (the store reached so far, plus the escaped exception
message, if any).  Timestamps are modelled as natural numbers; ISO-8601 strings
compare consistently with instant order, so `scheduled_time <= ?` becomes `≤`.
-/

namespace PostToSocial

/-- A row of the `posts` table (see the `CREATE TABLE posts` statement in
`initDatabase`).  `status` is stored as a string exactly as the code does. -/
structure Post where
  id : Nat
  content : String
  platforms : String
  scheduled_time : Nat
  status : String
  series_id : Option Nat
  series_order : Option Nat
  media_path : Option String
  posted_at : Option Nat
  error_message : Option String
  retry_count : Nat
  deriving Repr, DecidableEq

/-- A row of the `posting_history` table. -/
structure HistoryEntry where
  post_id : Nat
  platform : String
  status : String
  response_data : Option String
  error_message : Option String
  deriving Repr, DecidableEq

/-- The persistent state the scheduler reads and writes. -/
structure Store where
  posts : List Post
  history : List HistoryEntry
  deriving Repr, DecidableEq

/-- Character-level model of JavaScript `s.split(',')`: cut at every comma,
keeping empty pieces. -/
def splitCommaAux : List Char → List Char → List (List Char)
  | [], acc => [acc.reverse]
  | c :: cs, acc =>
    if c = ',' then acc.reverse :: splitCommaAux cs [] else splitCommaAux cs (c :: acc)

/-- JavaScript `s.split(',')` on a `String`. -/
def splitComma (s : String) : List String :=
  (splitCommaAux s.data []).map String.mk

/-- Character-level model of JavaScript `s.trim()`: drop whitespace from both
ends. -/
def trimString (s : String) : String :=
  String.mk (((s.data.dropWhile Char.isWhitespace).reverse.dropWhile Char.isWhitespace).reverse)

/-- The `WHERE` clause of `getScheduledPosts`:
`status = 'scheduled' AND scheduled_time <= ?`. -/
def isDue (currentTime : Nat) (p : Post) : Bool :=
  p.status == "scheduled" && p.scheduled_time ≤ currentTime

/-- The comparison behind `ORDER BY scheduled_time ASC`. -/
def schedLE (a b : Post) : Prop :=
  a.scheduled_time ≤ b.scheduled_time

instance : DecidableRel schedLE := fun a b => Nat.decLe a.scheduled_time b.scheduled_time

instance : IsTotal Post schedLE :=
  ⟨fun a b => Nat.le_total a.scheduled_time b.scheduled_time⟩

instance : IsTrans Post schedLE :=
  ⟨fun _ _ _ hab hbc => Nat.le_trans hab hbc⟩

/-- `Scheduler.getScheduledPosts`: `SELECT * FROM posts WHERE status = 'scheduled'
AND scheduled_time <= ? ORDER BY scheduled_time ASC`.  Selection is the filter,
ordering is a sort by `scheduled_time` (SQLite leaves tie order open; any
ascending arrangement of the selected rows is a faithful model). -/
def getScheduledPosts (posts : List Post) (currentTime : Nat) : List Post :=
  List.insertionSort schedLE (posts.filter (isDue currentTime))

/-- `Scheduler.updatePostStatus`: `UPDATE posts SET status = ?, posted_at = ?,
error_message = ? WHERE id = ?`.  Note that `posted_at` and `error_message` are
always overwritten (with NULL when the caller passed no value). -/
def updatePostStatusRun (s : Store) (postId : Nat) (status : String)
    (postedAt : Option Nat) (errorMessage : Option String) : Store :=
  { s with posts := s.posts.map (fun p =>
      if p.id = postId then
        { p with status := status, posted_at := postedAt, error_message := errorMessage }
      else p) }

/-- `Scheduler.logPostingHistory`: `INSERT INTO posting_history ...`. -/
def logPostingHistoryRun (s : Store) (postId : Nat) (platform status : String)
    (responseData errorMessage : Option String) : Store :=
  { s with history := s.history ++ [⟨postId, platform, status, responseData, errorMessage⟩] }

/-- `Scheduler.scheduleRetry`: `UPDATE posts SET status = 'scheduled',
scheduled_time = ?, retry_count = retry_count + 1, error_message = ? WHERE id = ?`
with `scheduled_time = Date.now() + retryDelay` and error message
`Retry ${post.retry_count + 1}` computed from the fetched row. -/
def scheduleRetryRun (s : Store) (post : Post) (now retryDelay : Nat) : Store :=
  { s with posts := s.posts.map (fun p =>
      if p.id = post.id then
        { p with status := "scheduled", scheduled_time := now + retryDelay,
                 retry_count := p.retry_count + 1,
                 error_message := some ("Retry " ++ toString (post.retry_count + 1)) }
      else p) }

/-- The external effects one tick can observe: the outcome of
`postToPlatform` for each (trimmed) platform name, and whether each of the three
database writes rejects (SQLite errors surface as rejected promises; on
rejection the row is not changed).  A total absence of database failures is the
normal mode of operation. -/
structure Env where
  publish : String → Except String Unit
  statusFail : Nat → String → Option String
  histFail : Nat → String → String → Option String
  retryFail : Nat → Option String

/-- No database write rejects. -/
def Env.noDbFailure (env : Env) : Prop :=
  (∀ i st, env.statusFail i st = none) ∧
  (∀ i pl st, env.histFail i pl st = none) ∧
  (∀ i, env.retryFail i = none)

/-- `await this.updatePostStatus(...)`: either the promise rejects (store
unchanged, exception escapes) or the update is applied. -/
def updatePostStatusE (env : Env) (s : Store) (postId : Nat) (status : String)
    (postedAt : Option Nat) (errorMessage : Option String) : Store × Option String :=
  match env.statusFail postId status with
  | some e => (s, some e)
  | none => (updatePostStatusRun s postId status postedAt errorMessage, none)

/-- `await this.logPostingHistory(...)` with possible rejection. -/
def logPostingHistoryE (env : Env) (s : Store) (postId : Nat) (platform status : String)
    (responseData errorMessage : Option String) : Store × Option String :=
  match env.histFail postId platform status with
  | some e => (s, some e)
  | none => (logPostingHistoryRun s postId platform status responseData errorMessage, none)

/-- `await this.scheduleRetry(post)` with possible rejection. -/
def scheduleRetryE (env : Env) (s : Store) (post : Post) (now retryDelay : Nat) :
    Store × Option String :=
  match env.retryFail post.id with
  | some e => (s, some e)
  | none => (scheduleRetryRun s post now retryDelay, none)

/-- The `for (const platform of platforms)` loop inside `processPost`.  The
`try` covers both the publish call and the success history insert, so a failed
success-insert is counted as a platform failure; a rejection of the
failure-insert inside the `catch` escapes the loop (last component `some e`).
Returns the store so far, the success tally, the collected
`"platform: message"` error list, and the escaped exception, if any. -/
def platformLoop (env : Env) (post : Post) :
    List String → Store → Nat → List String → Store × Nat × List String × Option String
  | [], s, successCount, errors => (s, successCount, errors, none)
  | platform :: rest, s, successCount, errors =>
    match env.publish (trimString platform) with
    | Except.ok _ =>
      match logPostingHistoryE env s post.id platform "posted" none none with
      | (s1, none) => platformLoop env post rest s1 (successCount + 1) errors
      | (s1, some e) =>
        match logPostingHistoryE env s1 post.id platform "failed" none (some e) with
        | (s2, none) =>
          platformLoop env post rest s2 successCount (errors ++ [platform ++ ": " ++ e])
        | (s2, some e2) => (s2, successCount, errors ++ [platform ++ ": " ++ e], some e2)
    | Except.error msg =>
      match logPostingHistoryE env s post.id platform "failed" none (some msg) with
      | (s1, none) =>
        platformLoop env post rest s1 successCount (errors ++ [platform ++ ": " ++ msg])
      | (s1, some e2) => (s1, successCount, errors ++ [platform ++ ": " ++ msg], some e2)

/-- `Scheduler.processPost`: mark the row `posting`, attempt every requested
platform, then classify.  `stampNow` is the wall-clock instant the code reads
(`new Date()` / `Date.now()`) when it stamps `posted_at` or computes the retry
time — this is read at classification time, after the publish attempts. -/
def processPost (env : Env) (retryAttempts retryDelay stampNow : Nat)
    (store : Store) (post : Post) : Store × Option String :=
  match updatePostStatusE env store post.id "posting" none none with
  | (s, some e) => (s, some e)
  | (s, none) =>
    let platforms := splitComma post.platforms
    match platformLoop env post platforms s 0 [] with
    | (s1, successCount, errors, oexc) =>
      match oexc with
      | some e => (s1, some e)
      | none =>
        if successCount = platforms.length then
          updatePostStatusE env s1 post.id "posted" (some stampNow) none
        else if 0 < successCount then
          updatePostStatusE env s1 post.id "partial" none
            (some (String.intercalate "; " errors))
        else if post.retry_count < retryAttempts then
          scheduleRetryE env s1 post stampNow retryDelay
        else
          updatePostStatusE env s1 post.id "failed" none
            (some (String.intercalate "; " errors))

/-- The `for (const post of posts) await this.processPost(post)` loop of
`checkAndPostScheduledPosts`.  An exception escaping `processPost` leaves the
loop (it propagates to the tick-level `catch`); `stamps i` is the wall clock
when the `i`-th post of the batch is classified. -/
def runDuePosts (env : Env) (retryAttempts retryDelay : Nat) (stamps : Nat → Nat) :
    List Post → Nat → Store → Store
  | [], _, s => s
  | p :: rest, i, s =>
    match processPost env retryAttempts retryDelay (stamps i) s p with
    | (s1, none) => runDuePosts env retryAttempts retryDelay stamps rest (i + 1) s1
    | (s1, some _) => s1

/-- `Scheduler.checkAndPostScheduledPosts`: snapshot `now`, query the due posts,
process them in order; the surrounding `try`/`catch` logs any escaped exception
and returns, so the tick always terminates with the store reached so far. -/
def checkAndPostScheduledPosts (env : Env) (retryAttempts retryDelay : Nat)
    (now : Nat) (stamps : Nat → Nat) (store : Store) : Store :=
  runDuePosts env retryAttempts retryDelay stamps (getScheduledPosts store.posts now) 0 store

/-- The `POST /api/series` handler (app.js): one `series` row, then for each
member entry, one `posts` row whose scheduled instant is the series start plus
`index * interval_minutes` (JavaScript `setMinutes` normalises the overflow, so
the addition is exact) and whose `series_order` is `index + 1`.  Instants here
are counted in minutes, the unit the handler adds in; `idBase` stands for the
first AUTOINCREMENT id handed out. -/
def expandSeries (startTime intervalMinutes : Nat) (platforms : String)
    (seriesId idBase : Nat) (members : List String) : List Post :=
  members.mapIdx (fun index content =>
    { id := idBase + index, content := content, platforms := platforms,
      scheduled_time := startTime + index * intervalMinutes,
      status := "scheduled", series_id := some seriesId,
      series_order := some (index + 1), media_path := none,
      posted_at := none, error_message := none, retry_count := 0 })

/-- Process-level scheduler lifecycle state: the `isRunning` flag, the number of
cron tasks registered by `cron.schedule` (the returned task handle is discarded
and never cancelled), how many tick executions are currently in flight, and
whether the SQLite handle is open. -/
structure SchedState where
  isRunning : Bool
  cronTasks : Nat
  inFlight : Nat
  dbOpen : Bool
  deriving Repr, DecidableEq

/-- State of a freshly constructed `Scheduler`. -/
def initScheduler : SchedState :=
  { isRunning := false, cronTasks := 0, inFlight := 0, dbOpen := true }

/-- `Scheduler.start`: returns early when `isRunning`, otherwise registers one
more cron task and sets the flag. -/
def schedulerStart (s : SchedState) : SchedState :=
  if s.isRunning then s
  else { s with cronTasks := s.cronTasks + 1, isRunning := true }

/-- `Scheduler.stop`: closes the database and clears `isRunning`; the cron tasks
registered by `start` are not cancelled (their handles were discarded). -/
def schedulerStop (s : SchedState) : SchedState :=
  { s with dbOpen := false, isRunning := false }

/-- One firing of the per-minute timer: every registered cron task runs its
callback `() => { this.checkAndPostScheduledPosts(); }`, which invokes the async
tick without awaiting it and without consulting any guard, so each firing task
adds one in-flight tick regardless of how many are already in flight. -/
def timerFire (s : SchedState) : SchedState :=
  { s with inFlight := s.inFlight + s.cronTasks }

/-- Completion of one in-flight tick. -/
def tickComplete (s : SchedState) : SchedState :=
  { s with inFlight := s.inFlight - 1 }

/-- What a publisher hands back on success; `mediaIncluded` records whether the
request body carried a media attachment. -/
structure PublishResult where
  success : Bool
  mediaIncluded : Bool
  deriving Repr, DecidableEq

/-- `LinkedInService.postUpdate`.  The media branch is guarded by
`if (mediaPath && fs.existsSync(mediaPath))`: a missing file silently skips the
upload and the share goes out with `shareMediaCategory: 'NONE'`.  Network
outcomes (profile fetch, upload, ugcPosts call) are abstracted by `apiOk`. -/
def linkedInPostUpdate (fsExists : String → Bool) (hasAccessToken apiOk : Bool)
    (content : String) (mediaPath : Option String) : Except String PublishResult :=
  if !hasAccessToken then
    Except.error "LinkedIn access token not available. Please authenticate first."
  else if !apiOk then
    Except.error "Failed to post to LinkedIn: network error"
  else
    match mediaPath with
    | none => Except.ok { success := true, mediaIncluded := false }
    | some p =>
      if fsExists p then Except.ok { success := true, mediaIncluded := true }
      else Except.ok { success := true, mediaIncluded := false }

/-- `TwitterService.uploadMedia`: throws `Media file not found: <path>` before
any network call when the file is missing; network outcome abstracted by
`apiOk`. -/
def uploadMedia (fsExists : String → Bool) (apiOk : Bool) (mediaPath : String) :
    Except String String :=
  if !fsExists mediaPath then Except.error ("Media file not found: " ++ mediaPath)
  else if apiOk then Except.ok "media-id"
  else Except.error "Failed to upload media to Twitter: network error"

/-- What `postTweet` hands back on success. -/
structure TweetResult where
  success : Bool
  mediaIds : List String
  deriving Repr, DecidableEq

/-- `TwitterService.postTweet`: when a media path is given it calls
`uploadMedia` first; any error thrown there is caught by the surrounding
`try`/`catch` and rethrown as `Failed to post to Twitter: <message>`, so the
whole attempt fails and nothing is posted. -/
def postTweet (fsExists : String → Bool) (hasCredentials apiOk : Bool)
    (content : String) (mediaPath : Option String) : Except String TweetResult :=
  if !hasCredentials then Except.error "Twitter API credentials not configured"
  else
    match mediaPath with
    | some p =>
      match uploadMedia fsExists apiOk p with
      | Except.error m => Except.error ("Failed to post to Twitter: " ++ m)
      | Except.ok mid =>
        if apiOk then Except.ok { success := true, mediaIds := [mid] }
        else Except.error "Failed to post to Twitter: network error"
    | none =>
      if apiOk then Except.ok { success := true, mediaIds := [] }
      else Except.error "Failed to post to Twitter: network error"

/-- The history row the platform loop appends for one platform, as a function of
the publisher outcome (failure-free database mode). -/
def publishEntry (env : Env) (postId : Nat) (platform : String) : HistoryEntry :=
  match env.publish (trimString platform) with
  | Except.ok _ => ⟨postId, platform, "posted", none, none⟩
  | Except.error m => ⟨postId, platform, "failed", none, some m⟩

/-- Whether the publisher delivers for this platform entry. -/
def publishOk (env : Env) (platform : String) : Bool :=
  match env.publish (trimString platform) with
  | Except.ok _ => true
  | Except.error _ => false

/-- The success tally the loop reaches (failure-free database mode). -/
def okCount (env : Env) (platforms : List String) : Nat :=
  (platforms.filter (publishOk env)).length

/-- The `"platform: message"` items collected for the failed platforms, in
platform-list order (failure-free database mode). -/
def failItems (env : Env) (platforms : List String) : List String :=
  platforms.filterMap (fun pl =>
    match env.publish (trimString pl) with
    | Except.ok _ => none
    | Except.error m => some (pl ++ ": " ++ m))

/-! ## Helper lemmas -/

theorem mem_getScheduledPosts (posts : List Post) (now : Nat) (p : Post) :
    p ∈ getScheduledPosts posts now ↔
      p ∈ posts ∧ p.status = "scheduled" ∧ p.scheduled_time ≤ now := by
  rw [getScheduledPosts, (List.perm_insertionSort schedLE _).mem_iff, List.mem_filter]
  simp [isDue, and_assoc]

theorem splitCommaAux_ne_nil (cs acc : List Char) : splitCommaAux cs acc ≠ [] := by
  induction cs generalizing acc with
  | nil => simp [splitCommaAux]
  | cons c cs ih =>
    simp only [splitCommaAux]
    by_cases hc : c = ','
    · simp [hc]
    · simpa [hc] using ih (c :: acc)

theorem splitComma_length_pos (s : String) : 0 < (splitComma s).length := by
  rw [splitComma, List.length_map]
  exact List.length_pos.mpr (splitCommaAux_ne_nil s.data [])

theorem platformLoop_noDbFailure (env : Env) (hdb : env.noDbFailure) (post : Post) :
    ∀ (pls : List String) (s : Store) (succ : Nat) (errs : List String),
      platformLoop env post pls s succ errs =
        ({ s with history := s.history ++ pls.map (publishEntry env post.id) },
         succ + okCount env pls, errs ++ failItems env pls, none) := by
  obtain ⟨hs, hh, hr⟩ := hdb
  intro pls
  induction pls with
  | nil =>
    intro s succ errs
    simp [platformLoop, okCount, failItems]
  | cons pl rest ih =>
    intro s succ errs
    cases hok : env.publish (trimString pl) with
    | ok u =>
      simp only [platformLoop, hok, logPostingHistoryE, hh, logPostingHistoryRun, ih]
      refine Prod.ext ?_ (Prod.ext ?_ (Prod.ext ?_ rfl))
      · simp [publishEntry, hok, List.append_assoc]
      · simp only [okCount, publishOk, List.filter_cons, hok]
        simp [Nat.add_comm, Nat.add_assoc, Nat.add_left_comm]
      · simp [failItems, hok]
    | error m =>
      simp only [platformLoop, hok, logPostingHistoryE, hh, logPostingHistoryRun, ih]
      refine Prod.ext ?_ (Prod.ext ?_ (Prod.ext ?_ rfl))
      · simp [publishEntry, hok, List.append_assoc]
      · simp only [okCount, publishOk, List.filter_cons, hok]
        simp
      · simp [failItems, hok, List.append_assoc]

/-- The store reached after the `posting` status write and the full platform
loop, in failure-free database mode. -/
def postLoopStore (env : Env) (s : Store) (post : Post) : Store :=
  { posts := (updatePostStatusRun s post.id "posting" none none).posts,
    history := s.history ++ (splitComma post.platforms).map (publishEntry env post.id) }

theorem processPost_noDbFailure (env : Env) (hdb : env.noDbFailure)
    (ra rd t : Nat) (s : Store) (post : Post) :
    processPost env ra rd t s post =
      (if okCount env (splitComma post.platforms) = (splitComma post.platforms).length then
         (updatePostStatusRun (postLoopStore env s post) post.id "posted" (some t) none, none)
       else if 0 < okCount env (splitComma post.platforms) then
         (updatePostStatusRun (postLoopStore env s post) post.id "partial" none
            (some (String.intercalate "; " (failItems env (splitComma post.platforms)))), none)
       else if post.retry_count < ra then
         (scheduleRetryRun (postLoopStore env s post) post t rd, none)
       else
         (updatePostStatusRun (postLoopStore env s post) post.id "failed" none
            (some (String.intercalate "; " (failItems env (splitComma post.platforms)))), none)) := by
  obtain ⟨hs, hh, hr⟩ := hdb
  simp only [processPost, updatePostStatusE, scheduleRetryE, hs, hr,
    platformLoop_noDbFailure env ⟨hs, hh, hr⟩ post, Nat.zero_add, List.nil_append,
    postLoopStore, updatePostStatusRun]

theorem mem_updatePostStatusRun (s : Store) (q : Post) (hmem : q ∈ s.posts)
    (postId : Nat) (hid : q.id = postId) (st : String) (pa : Option Nat)
    (em : Option String) :
    { q with status := st, posted_at := pa, error_message := em }
      ∈ (updatePostStatusRun s postId st pa em).posts := by
  simp only [updatePostStatusRun]
  exact List.mem_map.mpr ⟨q, hmem, by simp [hid]⟩

theorem mem_scheduleRetryRun (s : Store) (post q : Post) (hmem : q ∈ s.posts)
    (hid : q.id = post.id) (now rd : Nat) :
    { q with
      status := "scheduled",
      scheduled_time := now + rd,
      retry_count := q.retry_count + 1,
      error_message := some ("Retry " ++ toString (post.retry_count + 1)) }
      ∈ (scheduleRetryRun s post now rd).posts := by
  simp only [scheduleRetryRun]
  exact List.mem_map.mpr ⟨q, hmem, by simp [hid]⟩

theorem mem_updatePostStatusRun_other (s : Store) (q : Post) (hmem : q ∈ s.posts)
    (postId : Nat) (hid : q.id ≠ postId) (st : String) (pa : Option Nat)
    (em : Option String) : q ∈ (updatePostStatusRun s postId st pa em).posts := by
  simp only [updatePostStatusRun]
  exact List.mem_map.mpr ⟨q, hmem, by simp [hid]⟩

theorem mem_scheduleRetryRun_other (s : Store) (post q : Post) (hmem : q ∈ s.posts)
    (hid : q.id ≠ post.id) (now rd : Nat) : q ∈ (scheduleRetryRun s post now rd).posts := by
  simp only [scheduleRetryRun]
  exact List.mem_map.mpr ⟨q, hmem, by simp [hid]⟩

theorem platformLoop_posts (env : Env) (post : Post) :
    ∀ (pls : List String) (s : Store) (succ : Nat) (errs : List String),
      (platformLoop env post pls s succ errs).1.posts = s.posts := by
  intro pls
  induction pls with
  | nil => intro s succ errs; simp [platformLoop]
  | cons pl rest ih =>
    intro s succ errs
    cases hok : env.publish (trimString pl) with
    | ok u =>
      simp only [platformLoop, hok, logPostingHistoryE]
      cases h1 : env.histFail post.id pl "posted" with
      | none => simpa [logPostingHistoryRun] using ih _ _ _
      | some e =>
        cases h2 : env.histFail post.id pl "failed" with
        | none => simpa [logPostingHistoryRun] using ih _ _ _
        | some e2 => simp [logPostingHistoryRun]
    | error m =>
      simp only [platformLoop, hok, logPostingHistoryE]
      cases h1 : env.histFail post.id pl "failed" with
      | none => simpa [logPostingHistoryRun] using ih _ _ _
      | some e2 => simp [logPostingHistoryRun]

theorem processPost_posts_other (env : Env) (ra rd t : Nat) (s : Store) (post q : Post)
    (hmem : q ∈ s.posts) (hid : q.id ≠ post.id) :
    q ∈ (processPost env ra rd t s post).1.posts := by
  simp only [processPost, updatePostStatusE]
  cases hsf : env.statusFail post.id "posting" with
  | some e => simpa using hmem
  | none =>
    simp only
    have hq1 : q ∈ (updatePostStatusRun s post.id "posting" none none).posts :=
      mem_updatePostStatusRun_other s q hmem post.id hid "posting" none none
    rcases hloop : platformLoop env post (splitComma post.platforms)
        (updatePostStatusRun s post.id "posting" none none) 0 [] with ⟨s1, sc, errs, oexc⟩
    have hs1 : s1.posts = (updatePostStatusRun s post.id "posting" none none).posts := by
      have := platformLoop_posts env post (splitComma post.platforms)
        (updatePostStatusRun s post.id "posting" none none) 0 []
      rw [hloop] at this
      exact this
    have hq2 : q ∈ s1.posts := hs1 ▸ hq1
    cases oexc with
    | some e => simpa using hq2
    | none =>
      simp only
      by_cases h1 : sc = (splitComma post.platforms).length
      · simp only [h1, if_true, updatePostStatusE]
        cases hsf2 : env.statusFail post.id "posted" with
        | some e => simpa using hq2
        | none => simpa using mem_updatePostStatusRun_other s1 q hq2 post.id hid _ _ _
      · simp only [h1, if_false]
        by_cases h2 : 0 < sc
        · simp only [h2, if_true, updatePostStatusE]
          cases hsf2 : env.statusFail post.id "partial" with
          | some e => simpa using hq2
          | none => simpa using mem_updatePostStatusRun_other s1 q hq2 post.id hid _ _ _
        · simp only [h2, if_false]
          by_cases h3 : post.retry_count < ra
          · simp only [h3, if_true, scheduleRetryE]
            cases hrf : env.retryFail post.id with
            | some e => simpa using hq2
            | none => simpa using mem_scheduleRetryRun_other s1 post q hq2 hid t rd
          · simp only [h3, if_false, updatePostStatusE]
            cases hsf2 : env.statusFail post.id "failed" with
            | some e => simpa using hq2
            | none => simpa using mem_updatePostStatusRun_other s1 q hq2 post.id hid _ _ _

theorem publishEntry_ok (env : Env) (postId : Nat) (pl : String)
    (hpl : env.publish (trimString pl) = Except.ok ()) :
    publishEntry env postId pl = ⟨postId, pl, "posted", none, none⟩ := by
  simp [publishEntry, hpl]

theorem okCount_cons (env : Env) (pl : String) (rest : List String) :
    okCount env (pl :: rest) = (if publishOk env pl then 1 else 0) + okCount env rest := by
  by_cases hp : publishOk env pl <;>
    simp [okCount, List.filter_cons, hp, Nat.add_comm]

theorem failItems_cons_error (env : Env) (pl : String) (rest : List String) (m : String)
    (hpl : env.publish (trimString pl) = Except.error m) :
    failItems env (pl :: rest) = (pl ++ ": " ++ m) :: failItems env rest := by
  simp only [failItems, List.filterMap_cons, hpl]

theorem allFail_facts (env : Env) (msgF : String → String) :
    ∀ pls : List String,
      (∀ pl ∈ pls, env.publish (trimString pl) = Except.error (msgF pl)) →
      okCount env pls = 0 ∧
      failItems env pls = pls.map (fun pl => pl ++ ": " ++ msgF pl) := by
  intro pls
  induction pls with
  | nil => intro _; simp [okCount, failItems]
  | cons pl rest ih =>
    intro h
    have hpl := h pl (List.mem_cons_self _ _)
    have hrest := ih (fun x hx => h x (List.mem_cons_of_mem _ hx))
    constructor
    · rw [okCount_cons, hrest.1]
      have hok : publishOk env pl = false := by simp [publishOk, hpl]
      simp [hok]
    · rw [failItems_cons_error env pl rest _ hpl, hrest.2, List.map_cons]

theorem allOk_facts (env : Env) :
    ∀ pls : List String,
      (∀ pl ∈ pls, env.publish (trimString pl) = Except.ok ()) →
      okCount env pls = pls.length ∧
      ∀ postId : Nat, pls.map (publishEntry env postId) =
        pls.map (fun pl => (⟨postId, pl, "posted", none, none⟩ : HistoryEntry)) := by
  intro pls
  induction pls with
  | nil => intro _; simp [okCount]
  | cons pl rest ih =>
    intro h
    have hpl := h pl (List.mem_cons_self _ _)
    have hrest := ih (fun x hx => h x (List.mem_cons_of_mem _ hx))
    constructor
    · rw [okCount_cons, hrest.1]
      have hok : publishOk env pl = true := by simp [publishOk, hpl]
      simp [hok, Nat.add_comm]
    · intro postId
      rw [List.map_cons, List.map_cons, publishEntry_ok env postId pl hpl, hrest.2 postId]

/-! ## Claim theorems -/

/-- C3: for every store state and every time `now`, the due-post query returns
exactly the posts with status `scheduled` and `scheduled_time ≤ now` — all of
them and no others — ordered by `scheduled_time` ascending. -/
theorem due_query_exact (posts : List Post) (now : Nat) :
    (getScheduledPosts posts now).Perm (posts.filter (isDue now)) ∧
    List.Sorted schedLE (getScheduledPosts posts now) ∧
    ∀ p : Post, p ∈ getScheduledPosts posts now ↔
      p ∈ posts ∧ p.status = "scheduled" ∧ p.scheduled_time ≤ now :=
  ⟨List.perm_insertionSort schedLE (posts.filter (isDue now)),
   List.sorted_insertionSort schedLE (posts.filter (isDue now)),
   fun p => mem_getScheduledPosts posts now p⟩

/-- A scheduled due row used to instantiate C3. -/
def postC3 : Post :=
  { id := 4, content := "due", platforms := "linkedin", scheduled_time := 30,
    status := "scheduled", series_id := none, series_order := none, media_path := none,
    posted_at := none, error_message := none, retry_count := 0 }

/-- C3 witness: the due query instantiated on a one-row store. -/
theorem due_query_exact_witness :
    (getScheduledPosts [postC3] 100).Perm ([postC3].filter (isDue 100)) ∧
    (postC3 ∈ getScheduledPosts [postC3] 100 ↔
      postC3 ∈ [postC3] ∧ postC3.status = "scheduled" ∧ postC3.scheduled_time ≤ 100) :=
  ⟨(due_query_exact [postC3] 100).1, (due_query_exact [postC3] 100).2.2 postC3⟩

/-- C6: a post whose status is `posting` is never returned by the due-post
query, even when its `scheduled_time ≤ now`: only `scheduled` rows are
selected, so a post being dispatched is locked against re-pickup. -/
theorem posting_never_due (posts : List Post) (now : Nat) (p : Post)
    (h : p.status = "posting") : p ∉ getScheduledPosts posts now := by
  intro hmem
  have h2 := (mem_getScheduledPosts posts now p).mp hmem
  rw [h] at h2
  exact absurd h2.2.1 (by decide)

/-- A `posting`-status row used to witness C6. -/
def postC6 : Post :=
  { id := 1, content := "in flight", platforms := "twitter", scheduled_time := 5,
    status := "posting", series_id := none, series_order := none, media_path := none,
    posted_at := none, error_message := none, retry_count := 0 }

/-- C6 witness: a concrete `posting` row with `scheduled_time = 5 ≤ 100` is not
selected by the due query. -/
theorem posting_never_due_witness :
    postC6.status = "posting" ∧ postC6 ∉ getScheduledPosts [postC6] 100 :=
  ⟨rfl, posting_never_due [postC6] 100 postC6 rfl⟩

/-- C7: a series created with start `T`, interval `I` and `N` member entries
expands into exactly `N` posts, the member at 0-based index `i` getting
`scheduled_time = T + i*I` and `series_order = i + 1` — one consistent
(1-based) convention for all members. -/
theorem series_expansion_timing (start interval : Nat) (platforms : String)
    (seriesId idBase : Nat) (members : List String) :
    (expandSeries start interval platforms seriesId idBase members).length
        = members.length ∧
    ∀ (i : Nat) (h : i < (expandSeries start interval platforms seriesId idBase members).length),
      ((expandSeries start interval platforms seriesId idBase members).get ⟨i, h⟩).scheduled_time
          = start + i * interval ∧
      ((expandSeries start interval platforms seriesId idBase members).get ⟨i, h⟩).series_order
          = some (i + 1) := by
  refine ⟨List.length_mapIdx, fun i h => ?_⟩
  simp [expandSeries, List.get_eq_getElem, List.getElem_mapIdx]

/-- C7 witness: a 3-member series starting at 1000 with interval 30 yields the
member at index 2 scheduled at `1000 + 2*30` with `series_order = 3`. -/
theorem series_expansion_timing_witness :
    ((expandSeries 1000 30 "twitter,linkedin" 7 40 ["a", "b", "c"]).get
        ⟨2, by decide⟩).scheduled_time = 1000 + 2 * 30 ∧
    ((expandSeries 1000 30 "twitter,linkedin" 7 40 ["a", "b", "c"]).get
        ⟨2, by decide⟩).series_order = some (2 + 1) :=
  (series_expansion_timing 1000 30 "twitter,linkedin" 7 40 ["a", "b", "c"]).2 2 (by decide)

/-- C8: the per-minute cron callback invokes the async tick without awaiting it
and without any in-flight guard, so when the previous tick is still running at
the next firing, a second tick starts concurrently: starting the scheduler and
letting the timer fire twice with no completion in between leaves two tick
executions in flight, contradicting the claim that ticks are serialized or
skipped. -/
theorem tick_overlap_possible :
    (timerFire (timerFire (schedulerStart initScheduler))).inFlight = 2 := by decide

/-- C9: `stop` closes the database and clears `isRunning` but never cancels the
cron task registered by `start` (its handle was discarded), so a timer firing
after `start; stop` still begins a new tick — contradicting the first half of
the claim.  The second half (a second `start` while running schedules no
additional timer) does hold. -/
theorem stop_leaves_cron_active :
    (timerFire (schedulerStop (schedulerStart initScheduler))).inFlight = 1 ∧
    schedulerStart (schedulerStart initScheduler) = schedulerStart initScheduler := by
  decide

/-- C10: on a media path missing from disk, the two publishers disagree: the
LinkedIn publisher silently publishes the text without media and reports
success (its media branch is guarded by the file-existence check), while the X
publisher fails the whole attempt with a `Media file not found` error and posts
nothing (regardless of how the network would have behaved). -/
theorem publisher_media_divergence (fsExists : String → Bool) (p content : String)
    (h : fsExists p = false) :
    linkedInPostUpdate fsExists true true content (some p)
        = Except.ok { success := true, mediaIncluded := false } ∧
    ∀ apiOk : Bool, postTweet fsExists true apiOk content (some p)
        = Except.error ("Failed to post to Twitter: Media file not found: " ++ p) := by
  refine ⟨?_, fun apiOk => ?_⟩
  · simp [linkedInPostUpdate, h]
  · have hlit : ("Failed to post to Twitter: " ++ "Media file not found: " : String)
        = "Failed to post to Twitter: Media file not found: " := by decide
    simp [postTweet, uploadMedia, h, ← String.append_assoc, hlit]

/-- C10 witness: with no file present, LinkedIn succeeds without media while X
fails with the `Media file not found` error. -/
theorem publisher_media_divergence_witness :
    ((fun _ : String => false) "./uploads/img.png" = false) ∧
    linkedInPostUpdate (fun _ => false) true true "hello" (some "./uploads/img.png")
        = Except.ok { success := true, mediaIncluded := false } ∧
    postTweet (fun _ => false) true true "hello" (some "./uploads/img.png")
        = Except.error
            ("Failed to post to Twitter: Media file not found: " ++ "./uploads/img.png") :=
  ⟨rfl,
   (publisher_media_divergence (fun _ => false) "./uploads/img.png" "hello" rfl).1,
   (publisher_media_divergence (fun _ => false) "./uploads/img.png" "hello" rfl).2 true⟩

/-- C2: for a due post whose publish attempts fail on every requested platform,
if `retry_count < max_retries` the row returns to `scheduled` with
`scheduled_time = now + retry_delay`, `retry_count` incremented by exactly one
and error summary `"Retry N"` for the new count `N`; otherwise the row becomes
`failed` with the joined per-platform error list as summary and
`scheduled_time` unchanged (the updated record keeps `post.scheduled_time`).
`t` is the wall-clock instant read when the retry is scheduled. -/
theorem allfail_retry_policy (env : Env) (ra rd t : Nat) (s : Store) (post : Post)
    (msgF : String → String) (hdb : env.noDbFailure)
    (hfail : ∀ pl ∈ splitComma post.platforms,
      env.publish (trimString pl) = Except.error (msgF pl))
    (hmem : post ∈ s.posts) :
    (post.retry_count < ra →
      { post with
        status := "scheduled",
        scheduled_time := t + rd,
        retry_count := post.retry_count + 1,
        posted_at := none,
        error_message := some ("Retry " ++ toString (post.retry_count + 1)) }
        ∈ (processPost env ra rd t s post).1.posts) ∧
    (ra ≤ post.retry_count →
      { post with
        status := "failed",
        posted_at := none,
        error_message := some (String.intercalate "; "
          ((splitComma post.platforms).map (fun pl => pl ++ ": " ++ msgF pl))) }
        ∈ (processPost env ra rd t s post).1.posts) ∧
    (processPost env ra rd t s post).2 = none := by
  obtain ⟨hok0, hfi⟩ := allFail_facts env msgF (splitComma post.platforms) hfail
  have hne : ¬ ((0 : Nat) = (splitComma post.platforms).length) := by
    have := splitComma_length_pos post.platforms
    omega
  rw [processPost_noDbFailure env hdb ra rd t s post]
  simp only [hok0, hfi, if_neg hne, lt_irrefl, if_false]
  have hq1 : ({ post with status := "posting", posted_at := none, error_message := none })
      ∈ (updatePostStatusRun s post.id "posting" none none).posts :=
    mem_updatePostStatusRun s post hmem post.id rfl "posting" none none
  have hq2 : ({ post with status := "posting", posted_at := none, error_message := none })
      ∈ (postLoopStore env s post).posts := hq1
  refine ⟨fun hlt => ?_, fun hge => ?_, ?_⟩
  · rw [if_pos hlt]
    exact mem_scheduleRetryRun (postLoopStore env s post) post
      ({ post with status := "posting", posted_at := none, error_message := none })
      hq2 rfl t rd
  · rw [if_neg (Nat.not_lt.mpr hge)]
    exact mem_updatePostStatusRun (postLoopStore env s post)
      ({ post with status := "posting", posted_at := none, error_message := none })
      hq2 post.id rfl "failed" none
      (some (String.intercalate "; "
        ((splitComma post.platforms).map (fun pl => pl ++ ": " ++ msgF pl))))
  · by_cases hrc : post.retry_count < ra
    · rw [if_pos hrc]
    · rw [if_neg hrc]

/-- A due post whose single platform delivers; used for C4. -/
def postC4 : Post :=
  { id := 1, content := "hello", platforms := "twitter", scheduled_time := 50,
    status := "scheduled", series_id := none, series_order := none, media_path := none,
    posted_at := none, error_message := none, retry_count := 0 }

/-- Store holding only `postC4`. -/
def storeC4 : Store := { posts := [postC4], history := [] }

/-- Environment for C4: every publish delivers, no database write fails. -/
def envC4 : Env :=
  { publish := fun _ => Except.ok (),
    statusFail := fun _ _ => none,
    histFail := fun _ _ _ => none,
    retryFail := fun _ => none }

/-- C4 counterexample: the tick snapshots `now = 100` for the due query, but by
the time the post is classified the wall clock (a fresh `new Date()` in the
code) reads 105; `posted_at` is stamped 105, not the tick's `now = 100`, so the
claim that `posted_at` is "stamped to the tick's now" fails on this input. -/
theorem posted_at_not_tick_now :
    ((checkAndPostScheduledPosts envC4 3 300 100 (fun _ => 105) storeC4).posts.map
        Post.posted_at = [some 105]) ∧ (some (105 : Nat) ≠ some 100) := by decide

/-- C4 amended: for a due post where the publisher delivers on every requested
platform, the final status is `posted` with `posted_at` stamped with the
wall-clock instant `t` read at classification time (which need not equal the
tick's snapshot `now`), one `posted` history entry is appended per platform,
`retry_count` is unchanged, and no exception escapes. -/
theorem allsuccess_posted (env : Env) (ra rd t : Nat) (s : Store) (post : Post)
    (hdb : env.noDbFailure)
    (hok : ∀ pl ∈ splitComma post.platforms, env.publish (trimString pl) = Except.ok ())
    (hmem : post ∈ s.posts) :
    { post with status := "posted", posted_at := some t, error_message := none }
      ∈ (processPost env ra rd t s post).1.posts ∧
    (processPost env ra rd t s post).1.history =
      s.history ++ (splitComma post.platforms).map
        (fun pl => (⟨post.id, pl, "posted", none, none⟩ : HistoryEntry)) ∧
    (processPost env ra rd t s post).2 = none := by
  obtain ⟨hcnt, hmap⟩ := allOk_facts env (splitComma post.platforms) hok
  rw [processPost_noDbFailure env hdb ra rd t s post]
  simp only [hcnt]
  rw [if_pos trivial]
  have hq2 : ({ post with status := "posting", posted_at := none, error_message := none })
      ∈ (postLoopStore env s post).posts :=
    mem_updatePostStatusRun s post hmem post.id rfl "posting" none none
  refine ⟨?_, ?_, rfl⟩
  · exact mem_updatePostStatusRun (postLoopStore env s post)
      ({ post with status := "posting", posted_at := none, error_message := none })
      hq2 post.id rfl "posted" (some t) none
  · show s.history ++ (splitComma post.platforms).map (publishEntry env post.id) = _
    rw [hmap post.id]

/-- C4 amendment witness: `envC4` delivers on the single platform of `postC4`,
and processing at stamp instant 105 leaves the row `posted` with
`posted_at = some 105`. -/
theorem allsuccess_posted_witness :
    envC4.noDbFailure ∧
    (∀ pl ∈ splitComma postC4.platforms,
        envC4.publish (trimString pl) = Except.ok ()) ∧
    postC4 ∈ storeC4.posts ∧
    ({ postC4 with status := "posted", posted_at := some 105, error_message := none }
        ∈ (processPost envC4 3 300 105 storeC4 postC4).1.posts) :=
  ⟨⟨fun _ _ => rfl, fun _ _ _ => rfl, fun _ => rfl⟩, fun _ _ => rfl, by decide,
   (allsuccess_posted envC4 3 300 105 storeC4 postC4
      ⟨fun _ _ => rfl, fun _ _ _ => rfl, fun _ => rfl⟩ (fun _ _ => rfl) (by decide)).1⟩

/-- C5: for a due post where at least one but not all requested platforms
succeed, the final status is `partial` with the joined `"platform: message"`
list of the failed platforms as error summary, one history entry (posted or
failed) is appended per platform, and — whatever its `retry_count` — the post
is not rescheduled: its `scheduled_time` and `retry_count` are unchanged in the
updated record. -/
theorem mixedOutcome_terminal (env : Env) (ra rd t : Nat) (s : Store) (post : Post)
    (hdb : env.noDbFailure) (hmem : post ∈ s.posts)
    (hsome : 0 < okCount env (splitComma post.platforms))
    (hnotall : okCount env (splitComma post.platforms) < (splitComma post.platforms).length) :
    { post with
      status := "partial",
      posted_at := none,
      error_message := some (String.intercalate "; "
        (failItems env (splitComma post.platforms))) }
      ∈ (processPost env ra rd t s post).1.posts ∧
    (processPost env ra rd t s post).1.history =
      s.history ++ (splitComma post.platforms).map (publishEntry env post.id) ∧
    (processPost env ra rd t s post).2 = none := by
  rw [processPost_noDbFailure env hdb ra rd t s post]
  rw [if_neg (Nat.ne_of_lt hnotall), if_pos hsome]
  have hq2 : ({ post with status := "posting", posted_at := none, error_message := none })
      ∈ (postLoopStore env s post).posts :=
    mem_updatePostStatusRun s post hmem post.id rfl "posting" none none
  refine ⟨?_, rfl, rfl⟩
  exact mem_updatePostStatusRun (postLoopStore env s post)
    ({ post with status := "posting", posted_at := none, error_message := none })
    hq2 post.id rfl "partial" none
    (some (String.intercalate "; " (failItems env (splitComma post.platforms))))

/-- A two-platform due post; used for C5. -/
def postC5 : Post :=
  { id := 9, content := "mixed", platforms := "twitter,linkedin", scheduled_time := 40,
    status := "scheduled", series_id := none, series_order := none, media_path := none,
    posted_at := none, error_message := none, retry_count := 3 }

/-- Store holding only `postC5`. -/
def storeC5 : Store := { posts := [postC5], history := [] }

/-- Environment for C5: twitter delivers, linkedin is rejected. -/
def envC5 : Env :=
  { publish := fun pl =>
      if pl == "twitter" then Except.ok ()
      else Except.error "LinkedIn rate limit exceeded. Please try again later.",
    statusFail := fun _ _ => none,
    histFail := fun _ _ _ => none,
    retryFail := fun _ => none }

/-- C5 witness: twitter delivered and linkedin rejected leaves `postC5` in
status `partial` with linkedin's reason in the error summary, even at
`retry_count = 3`. -/
theorem mixedOutcome_terminal_witness :
    envC5.noDbFailure ∧
    postC5 ∈ storeC5.posts ∧
    0 < okCount envC5 (splitComma postC5.platforms) ∧
    okCount envC5 (splitComma postC5.platforms) < (splitComma postC5.platforms).length ∧
    ({ postC5 with
       status := "partial",
       posted_at := none,
       error_message := some (String.intercalate "; "
         (failItems envC5 (splitComma postC5.platforms))) }
        ∈ (processPost envC5 3 300 100 storeC5 postC5).1.posts) :=
  ⟨⟨fun _ _ => rfl, fun _ _ _ => rfl, fun _ => rfl⟩, by decide, by decide, by decide,
   (mixedOutcome_terminal envC5 3 300 100 storeC5 postC5
      ⟨fun _ _ => rfl, fun _ _ _ => rfl, fun _ => rfl⟩ (by decide) (by decide) (by decide)).1⟩

/-- A single-platform due post with retry budget left; used for C2. -/
def postC2 : Post :=
  { id := 3, content := "retry me", platforms := "twitter", scheduled_time := 60,
    status := "scheduled", series_id := none, series_order := none, media_path := none,
    posted_at := none, error_message := none, retry_count := 0 }

/-- Store holding only `postC2`. -/
def storeC2 : Store := { posts := [postC2], history := [] }

/-- Environment for C2: every publish attempt is rejected, no database write
fails. -/
def envC2 : Env :=
  { publish := fun _ =>
      Except.error "Twitter authentication failed. Please check your API credentials.",
    statusFail := fun _ _ => none,
    histFail := fun _ _ _ => none,
    retryFail := fun _ => none }

/-- C2 witness: with every platform rejected and `retry_count = 0 < 3`,
processing at instant 100 with delay 300 reschedules the row to `scheduled` at
`100 + 300` with `retry_count = 1` and summary `"Retry 1"`. -/
theorem allfail_retry_policy_witness :
    envC2.noDbFailure ∧
    (∀ pl ∈ splitComma postC2.platforms,
        envC2.publish (trimString pl)
          = Except.error "Twitter authentication failed. Please check your API credentials.") ∧
    postC2 ∈ storeC2.posts ∧
    postC2.retry_count < 3 ∧
    ({ postC2 with
       status := "scheduled",
       scheduled_time := 100 + 300,
       retry_count := postC2.retry_count + 1,
       posted_at := none,
       error_message := some ("Retry " ++ toString (postC2.retry_count + 1)) }
        ∈ (processPost envC2 3 300 100 storeC2 postC2).1.posts) :=
  ⟨⟨fun _ _ => rfl, fun _ _ _ => rfl, fun _ => rfl⟩, fun _ _ => rfl, by decide, by decide,
   (allfail_retry_policy envC2 3 300 100 storeC2 postC2
      (fun _ => "Twitter authentication failed. Please check your API credentials.")
      ⟨fun _ _ => rfl, fun _ _ _ => rfl, fun _ => rfl⟩ (fun _ _ => rfl) (by decide)).1
     (by decide)⟩

/-- First due post of the C1 batch; its initial `posting` status write is the
one the database rejects. -/
def p1C1 : Post :=
  { id := 1, content := "first", platforms := "twitter", scheduled_time := 10,
    status := "scheduled", series_id := none, series_order := none, media_path := none,
    posted_at := none, error_message := none, retry_count := 0 }

/-- Second due post of the C1 batch; its publisher would deliver. -/
def p2C1 : Post :=
  { id := 2, content := "second", platforms := "twitter", scheduled_time := 20,
    status := "scheduled", series_id := none, series_order := none, media_path := none,
    posted_at := none, error_message := none, retry_count := 0 }

/-- Store holding the two due posts of the C1 batch. -/
def storeC1 : Store := { posts := [p1C1, p2C1], history := [] }

/-- Environment for C1: publishing always delivers, but the `UPDATE` that sets
post 1 to `posting` rejects (e.g. a transient SQLite error), which is an
unhandled exception inside `processPost`. -/
def envC1 : Env :=
  { publish := fun _ => Except.ok (),
    statusFail := fun i st =>
      if i == 1 && st == "posting" then some "SQLITE_ERROR: database is locked"
      else none,
    histFail := fun _ _ _ => none,
    retryFail := fun _ => none }

/-- C1 counterexample: both posts are due at `now = 100` and post 2's publisher
would deliver, so the claim requires post 2 to be processed and updated (it
would end `posted` with history appended).  Instead, the exception raised while
processing post 1 leaves the `for` loop — whose `try`/`catch` sits outside the
loop — and the tick returns with the store completely unchanged: post 2 is
still `scheduled` and no history entry exists. -/
theorem batch_not_isolated :
    p2C1 ∈ getScheduledPosts storeC1.posts 100 ∧
    (processPost envC1 3 300 100 storeC1 p1C1).2.isSome = true ∧
    checkAndPostScheduledPosts envC1 3 300 100 (fun _ => 100) storeC1 = storeC1 := by
  decide

/-- C1 amended: an unhandled exception while processing a due post aborts the
processing of the remaining due posts of that batch; the tick-level handler
catches it so the tick returns normally (later ticks proceed), and each
remaining due post is left untouched — still `scheduled` and still due, so a
later tick picks it up.  Stated here for an exception on the first post of the
batch. -/
theorem tick_abort_keeps_rest_due (env : Env) (ra rd now : Nat) (stamps : Nat → Nat)
    (store : Store) (p1 p2 : Post) (rest : List Post)
    (hdue : getScheduledPosts store.posts now = p1 :: p2 :: rest)
    (herr : (processPost env ra rd (stamps 0) store p1).2.isSome)
    (hid : p2.id ≠ p1.id) :
    checkAndPostScheduledPosts env ra rd now stamps store
        = (processPost env ra rd (stamps 0) store p1).1 ∧
    p2 ∈ (checkAndPostScheduledPosts env ra rd now stamps store).posts ∧
    p2.status = "scheduled" ∧ p2.scheduled_time ≤ now := by
  have hp2 : p2 ∈ getScheduledPosts store.posts now := by
    rw [hdue]
    exact List.mem_cons_of_mem _ (List.mem_cons_self _ _)
  have hp2' := (mem_getScheduledPosts store.posts now p2).mp hp2
  rcases hpr : processPost env ra rd (stamps 0) store p1 with ⟨s1, oe⟩
  rw [hpr] at herr
  cases oe with
  | none => simp at herr
  | some e =>
    have heq : checkAndPostScheduledPosts env ra rd now stamps store = s1 := by
      simp only [checkAndPostScheduledPosts]
      rw [hdue]
      simp only [runDuePosts, hpr]
    refine ⟨by rw [heq], ?_, hp2'.2.1, hp2'.2.2⟩
    rw [heq]
    have hkeep := processPost_posts_other env ra rd (stamps 0) store p1 p2 hp2'.1 hid
    rw [hpr] at hkeep
    exact hkeep

/-- C1 amendment witness: at the concrete C1 input, the tick stops after the
failing first post, and the second post is still present, `scheduled` and
due. -/
theorem tick_abort_keeps_rest_due_witness :
    getScheduledPosts storeC1.posts 100 = p1C1 :: p2C1 :: [] ∧
    (processPost envC1 3 300 100 storeC1 p1C1).2.isSome = true ∧
    p2C1.id ≠ p1C1.id ∧
    (checkAndPostScheduledPosts envC1 3 300 100 (fun _ => 100) storeC1
        = (processPost envC1 3 300 100 storeC1 p1C1).1 ∧
     p2C1 ∈ (checkAndPostScheduledPosts envC1 3 300 100 (fun _ => 100) storeC1).posts ∧
     p2C1.status = "scheduled" ∧ p2C1.scheduled_time ≤ 100) :=
  ⟨by decide, by decide, by decide,
   tick_abort_keeps_rest_due envC1 3 300 100 (fun _ => 100) storeC1 p1C1 p2C1 []
     (by decide) (by decide) (by decide)⟩

end PostToSocial
